import Mathlib

/-!
Verification of the fastcs-odin core against its specification.

The development shallowly embeds the Python sources:
  * `src/fastcs_odin/util.py` - the metadata tree flattening walk
    (`create_odin_parameters`, `_walk_odin_metadata`, `expand_list_parameter`,
    `expand_dict_parameter`, `infer_metadata`, `OdinParameterMetadata`).
  * `src/fastcs_odin/io/parameter_cache.py` - `ParameterTreeCache.get` / `put`
    and the helpers `_resolve_value`, `_update_value`, `_has_expired`.
  * `src/fastcs_odin/io/status_summary_attribute_io.py` - `_filter_sub_controllers`.
  * `src/fastcs_odin/io/config_fan_sender_attribute_io.py` - `ConfigFanAttributeIO.update`.

JSON values are modelled by the inductive `JValue`; Python dicts are association
lists preserving insertion order, which is the iteration order of `dict.items`.
Python floats are carried as opaque literal strings: no claim depends on float
arithmetic, only on the runtime type name and on value identity.
Fallible Python code (exceptions) is modelled with `Option` / `Except`.
-/

/-- A JSON value as manipulated by the Python sources. -/
inductive JValue where
  | null
  | jbool (b : Bool)
  | jint (n : Int)
  | jfloat (lit : String)
  | jstr (s : String)
  | jarr (items : List JValue)
  | jobj (entries : List (String × JValue))
deriving Repr

/-- Ordered dictionary lookup, as `d[k]` / `k in d` on a Python dict. -/
def lookupJ : List (String × JValue) → String → Option JValue
  | [], _ => none
  | (k, v) :: rest, key => if k == key then some v else lookupJ rest key

/-- Ordered dictionary assignment `d[k] = v`: replaces in place, appends if absent. -/
def dictSet : List (String × JValue) → String → JValue → List (String × JValue)
  | [], key, v => [(key, v)]
  | (k, v0) :: rest, key, v =>
    if k == key then (k, v) :: rest else (k, v0) :: dictSet rest key v

/-- Python `type(x).__name__` for JSON values. -/
def pyTypeName : JValue → String
  | .null => "NoneType"
  | .jbool _ => "bool"
  | .jint _ => "int"
  | .jfloat _ => "float"
  | .jstr _ => "str"
  | .jarr _ => "list"
  | .jobj _ => "dict"

/-- Is the value a Python dict (`isinstance(v, dict)`). -/
def isDictJ : JValue → Bool
  | .jobj _ => true
  | _ => false

/-- Is the value a Python list (`isinstance(v, list)`). -/
def isListJ : JValue → Bool
  | .jarr _ => true
  | _ => false

mutual
/-- Python `repr` of a JSON value, as produced inside `str(list)`.
String escaping is not modelled beyond wrapping in single quotes; the
specification only exercises plain identifiers and digits. -/
def pyRepr : JValue → String
  | .null => "None"
  | .jbool b => if b then "True" else "False"
  | .jint n => toString n
  | .jfloat lit => lit
  | .jstr s => "\x27" ++ s ++ "\x27"
  | .jarr items => "[" ++ pyReprList items ++ "]"
  | .jobj entries => "\x7b" ++ pyReprObj entries ++ "\x7d"

/-- Comma separated reprs of the elements of a Python list. -/
def pyReprList : List JValue → String
  | [] => ""
  | [v] => pyRepr v
  | v :: rest => pyRepr v ++ ", " ++ pyReprList rest

/-- Comma separated reprs of the items of a Python dict. -/
def pyReprObj : List (String × JValue) → String
  | [] => ""
  | [(k, v)] => "\x27" ++ k ++ "\x27: " ++ pyRepr v
  | (k, v) :: rest => "\x27" ++ k ++ "\x27: " ++ pyRepr v ++ ", " ++ pyReprObj rest
end

/-- Python `str` of a JSON value (`str` on a string is the string itself). -/
def pyStr : JValue → String
  | .jstr s => s
  | v => pyRepr v

/-- The metadata model of `util.py::OdinParameterMetadata` (a pydantic model with
`extra="forbid"`). The `type` field is constrained to
`Literal["float", "int", "bool", "str"]` by validation. -/
structure OdinParameterMetadata where
  value : JValue
  writeable : Bool
  type : String
  allowed_values : Option (List (Int × String)) := none
  name : Option String := none
  description : Option String := none
  units : Option String := none
  display_precision : Option Int := none
deriving Repr

/-- The field names accepted by `OdinParameterMetadata` (`extra="forbid"`). -/
def odinMetadataFields : List String :=
  ["value", "writeable", "type", "allowed_values", "name", "description",
   "units", "display_precision"]

/-- The values accepted for the `type` field: `Literal["float", "int", "bool", "str"]`. -/
def odinTypeNames : List String := ["float", "int", "bool", "str"]

/-- A JSON value accepted for a `bool` field. Pydantic lax-mode coercions of
non-boolean values are not exercised by any claim and are not modelled. -/
def asBoolJ : JValue → Option Bool
  | .jbool b => some b
  | _ => none

/-- A JSON value accepted for a `str` field. -/
def asStrJ : JValue → Option String
  | .jstr s => some s
  | _ => none

/-- An optional `str | None` field: absent or null is `None`. -/
def optStrField (entries : List (String × JValue)) (key : String) :
    Option (Option String) :=
  match lookupJ entries key with
  | none => some none
  | some .null => some none
  | some (.jstr s) => some (some s)
  | some _ => none

/-- An optional `int | None` field: absent or null is `None`. -/
def optIntField (entries : List (String × JValue)) (key : String) :
    Option (Option Int) :=
  match lookupJ entries key with
  | none => some none
  | some .null => some none
  | some (.jint n) => some (some n)
  | some _ => none

/-- One item of an `allowed_values: dict[int, str]` mapping; pydantic coerces
the JSON string key to an integer. -/
def allowedValuesItem : String × JValue → Option (Int × String)
  | (k, .jstr s) => (k.toInt?).map (fun n => (n, s))
  | _ => none

/-- The optional `allowed_values: dict[int, str] | None` field. -/
def allowedValuesField (entries : List (String × JValue)) :
    Option (Option (List (Int × String))) :=
  match lookupJ entries "allowed_values" with
  | none => some none
  | some .null => some none
  | some (.jobj kvs) => (kvs.mapM allowedValuesItem).map some
  | some _ => none

/-- `OdinParameterMetadata.model_validate`: pydantic validation of a JSON value
against the model, `none` on `ValidationError`. -/
def OdinParameterMetadata.model_validate (v : JValue) :
    Option OdinParameterMetadata :=
  match v with
  | .jobj entries =>
    if entries.all (fun kv => odinMetadataFields.contains kv.1) then
      match lookupJ entries "value" with
      | none => none
      | some value =>
        match (lookupJ entries "writeable").bind asBoolJ with
        | none => none
        | some writeable =>
          match (lookupJ entries "type").bind asStrJ with
          | none => none
          | some ty =>
            if odinTypeNames.contains ty then
              match allowedValuesField entries, optStrField entries "name",
                  optStrField entries "description", optStrField entries "units",
                  optIntField entries "display_precision" with
              | some av, some nm, some ds, some un, some dp =>
                some { value := value, writeable := writeable, type := ty,
                       allowed_values := av, name := nm, description := ds,
                       units := un, display_precision := dp }
              | _, _, _, _, _ => none
            else none
    else none
  | _ => none

/-- `util.py::is_metadata_object`: a dict containing the keys
`writeable`, `type` and `value`. -/
def is_metadata_object : JValue → Bool
  | .jobj entries =>
    (lookupJ entries "writeable").isSome && (lookupJ entries "type").isSome &&
      (lookupJ entries "value").isSome
  | _ => false

/-- `util.py::infer_metadata`: build metadata from value, runtime type name and
whether the URI contains `config`; `none` on `ValidationError`. -/
def infer_metadata (parameter : JValue) (uri : List String) :
    Option OdinParameterMetadata :=
  OdinParameterMetadata.model_validate
    (.jobj [("value", parameter),
            ("type", .jstr (pyTypeName parameter)),
            ("writeable", .jbool (uri.contains "config"))])

/-- `util.py::expand_list_parameter` starting at index `idx`. The source is a
generator consumed inside a try block: elements yielded before a
`ValidationError` are kept, the failing element and the rest are dropped. -/
def expand_list_from : List JValue → Nat → List String →
    List (List String × OdinParameterMetadata)
  | [], _, _ => []
  | v :: rest, idx, path =>
    match infer_metadata v (path ++ [toString idx]) with
    | some md => (path ++ [toString idx], md) :: expand_list_from rest (idx + 1) path
    | none => []

/-- `util.py::expand_list_parameter`: one indexed parameter per list element. -/
def expand_list_parameter (values : List JValue) (path : List String) :
    List (List String × OdinParameterMetadata) :=
  expand_list_from values 0 path

/-- `util.py::expand_dict_parameter`: one parameter per dict key, with the same
generator exception semantics as `expand_list_parameter`. -/
def expand_dict_parameter : List (String × JValue) → List String →
    List (List String × OdinParameterMetadata)
  | [], _ => []
  | (key, v) :: rest, path =>
    match infer_metadata v (path ++ [key]) with
    | some md => (path ++ [key], md) :: expand_dict_parameter rest path
    | none => []

/-- The metadata-wrapped leaf branch of `_walk_odin_metadata` (lines 132-144):
a list value expands per index, a dict value per key, a scalar validates. -/
def walk_leaf_metadata (entries : List (String × JValue)) (node_path : List String) :
    List (List String × OdinParameterMetadata) :=
  match lookupJ entries "value" with
  | some (.jarr vs) => expand_list_parameter vs node_path
  | some (.jobj ds) => expand_dict_parameter ds node_path
  | _ =>
    match OdinParameterMetadata.model_validate (.jobj entries) with
    | some md => [(node_path, md)]
    | none => []

/-- The raw list leaf branch of `_walk_odin_metadata` (lines 145-153): expand
under a `config` path, otherwise collapse to the Python string of the list. -/
def walk_leaf_list (items : List JValue) (node_path : List String) :
    List (List String × OdinParameterMetadata) :=
  if node_path.contains "config" then expand_list_parameter items node_path
  else
    match infer_metadata (.jstr (pyStr (.jarr items))) node_path with
    | some md => [(node_path, md)]
    | none => []

/-- The raw scalar leaf branch of `_walk_odin_metadata` (lines 155-157). -/
def walk_leaf_scalar (v : JValue) (node_path : List String) :
    List (List String × OdinParameterMetadata) :=
  match infer_metadata v node_path with
  | some md => [(node_path, md)]
  | none => []

mutual
/-- `util.py::_walk_odin_metadata`: iterate the items of the tree in insertion
order, yielding the leaves of each node depth first. -/
def walk_odin_metadata : List (String × JValue) → List String →
    List (List String × OdinParameterMetadata)
  | [], _ => []
  | (node_name, node_value) :: rest, path =>
    walk_odin_node node_name node_value path ++ walk_odin_metadata rest path

/-- Processing of one tree item by `_walk_odin_metadata` (lines 110-162):
skip `command` paths, recurse through dict branches and non-empty all-dict
list branches, otherwise handle the value as a leaf. -/
def walk_odin_node (node_name : String) (node_value : JValue) (path : List String) :
    List (List String × OdinParameterMetadata) :=
  let node_path := path ++ [node_name]
  if node_path.contains "command" then []
  else
    match node_value with
    | .jobj entries =>
      if is_metadata_object (.jobj entries) then walk_leaf_metadata entries node_path
      else walk_odin_metadata entries node_path
    | .jarr items =>
      if !items.isEmpty && items.all isDictJ then walk_odin_shards items 0 node_path
      else walk_leaf_list items node_path
    | v => walk_leaf_scalar v node_path

/-- The sharded branch of `_walk_odin_metadata` (lines 125-127): recurse into
each element with the path extended by its index. Every element is a dict
here, guarded by the all-dict check; the fallback arm is unreachable. -/
def walk_odin_shards : List JValue → Nat → List String →
    List (List String × OdinParameterMetadata)
  | [], _, _ => []
  | sub :: rest, idx, node_path =>
    (match sub with
     | .jobj entries => walk_odin_metadata entries (node_path ++ [toString idx])
     | _ => []) ++ walk_odin_shards rest (idx + 1) node_path
end

/-- `util.py::OdinParameter`: full URI, metadata and the mutable reduced path. -/
structure OdinParameter where
  uri : List String
  metadata : OdinParameterMetadata
  _path : List String := []
deriving Repr

/-- `OdinParameter.path`: the reduced path, defaulting to the URI while unset. -/
def OdinParameter.path (p : OdinParameter) : List String :=
  if p._path.isEmpty then p.uri else p._path

/-- `OdinParameter.name`: the reduced path joined with underscores. -/
def OdinParameter.name (p : OdinParameter) : String :=
  String.intercalate "_" p.path

/-- `util.py::create_odin_parameters`: flatten the metadata tree into a list of
parameters, one per walked leaf. -/
def create_odin_parameters (metadata : List (String × JValue)) :
    List OdinParameter :=
  (walk_odin_metadata metadata []).map
    (fun um => { uri := um.1, metadata := um.2 })

example :
    create_odin_parameters
      [("config", .jobj [("chunks", .jarr [.jint 1])])] =
      [{ uri := ["config", "chunks", "0"],
         metadata := { value := .jint 1, writeable := true, type := "int" } }] := rfl

example :
    create_odin_parameters
      [("status", .jobj [("values", .jarr [.jint 1])])] =
      [{ uri := ["status", "values"],
         metadata := { value := .jstr "[1]", writeable := false, type := "str" } }] := rfl

/-! ## Parameter tree cache (`io/parameter_cache.py`) -/

/-- Python `int(segment)` for a decimal path segment, as used to index a list
in `_resolve_value`; accepts an optional sign. -/
def digitsToNat : List Char → Nat → Option Nat
  | [], acc => some acc
  | c :: rest, acc =>
    if c.isDigit then digitsToNat rest (acc * 10 + (c.toNat - 48)) else none

/-- Python `int(s)` on a path segment (whitespace stripping is not modelled). -/
def pyInt (s : String) : Option Int :=
  match s.data with
  | [] => none
  | '-' :: rest =>
    if rest.isEmpty then none else (digitsToNat rest 0).map (fun n => -(n : Int))
  | '+' :: rest =>
    if rest.isEmpty then none else (digitsToNat rest 0).map (fun n => (n : Int))
  | l => (digitsToNat l 0).map (fun n => (n : Int))

/-- Python list indexing `items[i]`, with negative indices counted from the
end and an `IndexError` out of range. -/
def pyListGet (items : List JValue) (i : Int) : Except String JValue :=
  let j : Int := if i < 0 then (items.length : Int) + i else i
  if h : 0 ≤ j ∧ j.toNat < items.length then .ok (items.get ⟨j.toNat, h.2⟩)
  else .error "IndexError"

/-- `ParameterTreeCache._resolve_value`: descend the cached tree along the path
elements, indexing a list with the integer value of the final segment and a
dict with the segment itself. Missing keys, bad indices and subscripting a
scalar are lookup errors for the call. -/
def resolve_value : List String → JValue → Except String JValue
  | [], _ => .error "IndexError"
  | p :: rest, tree =>
    match rest with
    | [] =>
      match tree with
      | .jarr items =>
        match pyInt p with
        | none => .error ("ValueError: " ++ p)
        | some i => pyListGet items i
      | .jobj entries =>
        match lookupJ entries p with
        | some v => .ok v
        | none => .error ("KeyError: " ++ p)
      | _ => .error "TypeError"
    | _ :: _ =>
      match tree with
      | .jobj entries =>
        match lookupJ entries p with
        | some v => resolve_value rest v
        | none => .error ("KeyError: " ++ p)
      | _ => .error "TypeError"

/-- `ParameterTreeCache._update_value`: set the value at the path elements in
the tree, returned functionally. A one element path assigns into the current
dict (inserting if absent, as Python dict assignment does); a longer path
descends through existing dict entries. -/
def update_value : List String → JValue → JValue → Except String JValue
  | [], _, _ => .error "IndexError"
  | p :: rest, value, tree =>
    match rest with
    | [] =>
      match tree with
      | .jobj entries => .ok (.jobj (dictSet entries p value))
      | _ => .error "TypeError"
    | _ :: _ =>
      match tree with
      | .jobj entries =>
        match lookupJ entries p with
        | some sub =>
          match update_value rest value sub with
          | .ok sub2 => .ok (.jobj (dictSet entries p sub2))
          | .error e => .error e
        | none => .error ("KeyError: " ++ p)
      | _ => .error "TypeError"

/-- The error envelope match `case lbrace "error": error rbrace` of `get` and
`put`: a mapping pattern, matching any dict that contains the key `error`. -/
def isErrorEnvelope : JValue → Bool
  | .jobj entries => (lookupJ entries "error").isSome
  | _ => false

/-- Python `path.split("/")`: splits at every slash, keeping empty segments;
an empty string yields one empty segment. Defined structurally over the
character list so that it evaluates definitionally. -/
def splitCharList : List Char → List Char → List String
  | [], acc => [String.mk acc.reverse]
  | c :: rest, acc =>
    if c == '/' then String.mk acc.reverse :: splitCharList rest []
    else splitCharList rest (c :: acc)

/-- Python `path.split("/")` on a string. -/
def splitSlash (s : String) : List String := splitCharList s.data []

/-- `ParameterTreeCache.put`, given the remote response for the write: an error
envelope raises `AdapterResponseError`; otherwise the value the remote returned
for the last path segment is extracted and patched into the cached tree at the
path elements after the first. Any exception inside the body is re-raised as
`AdapterResponseError`. -/
def cache_put (tree : JValue) (path : String) (response : JValue) :
    Except String JValue :=
  if isErrorEnvelope response then .error "AdapterResponseError"
  else
    let path_elems := splitSlash path
    match response with
    | .jobj entries =>
      -- response.get(path_elems[-1]) : dict.get defaults to None
      let new_value := (lookupJ entries (path_elems.getLastD "")).getD .null
      match update_value (path_elems.drop 1) new_value tree with
      | .ok tree2 => .ok tree2
      | .error _ => .error "AdapterResponseError"
    | _ => .error "AdapterResponseError"

/-- `ParameterTreeCache._has_expired`: expired when never updated or when the
elapsed time exceeds the time step. Time is modelled in whole ticks. -/
def has_expired (last_update : Option Nat) (now : Nat) (time_step : Nat) : Bool :=
  match last_update with
  | none => true
  | some t => now - t > time_step

/-- The refresh condition of `get` (line 101): `not update_period or
self._has_expired(update_period)`, where `None` and `0` are both falsy. -/
def needs_update (last_update : Option Nat) (now : Nat)
    (update_period : Option Nat) : Bool :=
  match update_period with
  | none => true
  | some p => if p == 0 then true else has_expired last_update now p

/-- The mutable state of a `ParameterTreeCache`: the cached tree, the last
update stamp and the update event (`true` when set, the gate open). -/
structure CacheState where
  tree : JValue
  last_update : Option Nat
  event_set : Bool
deriving Repr

/-- The refresh block of `get` (lines 102-121) run by the caller that finds the
gate open: clear the event, perform the one remote fetch, on success install
the response and stamp the time, on an error envelope or a transport failure
raise `AdapterResponseError` leaving the tree untouched; the finally block sets
the event again in every case. Returns the new state and the raised error. -/
def refresh_initiator (s : CacheState) (now : Nat)
    (fetch : Except String JValue) : CacheState × Option String :=
  match fetch with
  | .error _ => ({ s with event_set := true }, some "AdapterResponseError")
  | .ok response =>
    if isErrorEnvelope response then
      ({ s with event_set := true }, some "AdapterResponseError")
    else
      ({ tree := response, last_update := some now, event_set := true }, none)

/-- The tail of `get` (lines 125-127): resolve the path against the cached tree. -/
def cache_get_cached (tree : JValue) (path : String) : Except String JValue :=
  resolve_value (splitSlash path) tree

/-- `ParameterTreeCache.get` for a caller that does not suspend on the event:
refresh the tree when stale and the gate is open, then resolve the path. The
remote fetch outcome is passed in as `fetch`; it is consumed at most once. -/
def cache_get (s : CacheState) (now : Nat) (path : String)
    (update_period : Option Nat) (fetch : Except String JValue) :
    CacheState × Except String JValue :=
  if needs_update s.last_update now update_period && s.event_set then
    let (s2, err) := refresh_initiator { s with event_set := false } now fetch
    match err with
    | some e => (s2, .error e)
    | none => (s2, cache_get_cached s2.tree path)
  else (s, cache_get_cached s.tree path)

/-- The cooperative single-flight schedule of two concurrent `get` calls on a
stale cache: caller A finds the gate open and performs the fetch; caller B
arrives while the gate is closed, suspends on `self._update_event.wait()`, and
resumes after the finally block of A reopens the gate, reading whatever tree
the cache then holds without a second fetch. Returns the final state, the
outcome of A and the outcome of B. -/
def single_flight_pair (s : CacheState) (now : Nat) (path_a path_b : String)
    (fetch : Except String JValue) :
    CacheState × Except String JValue × Except String JValue :=
  let (s2, err) := refresh_initiator { s with event_set := false } now fetch
  let ra := match err with
    | some e => .error e
    | none => cache_get_cached s2.tree path_a
  let rb := cache_get_cached s2.tree path_b
  (s2, ra, rb)

/-! ## Hierarchy resolution (`io/status_summary_attribute_io.py`) -/

/-- A tree of composed controllers: each node exposes named sub controllers in
insertion order (`BaseController.sub_controllers`). -/
inductive ControllerNode where
  | node (sub_controllers : List (String × ControllerNode))

/-- The named children of a controller node. -/
def ControllerNode.subs : ControllerNode → List (String × ControllerNode)
  | .node cs => cs

/-- Child lookup in the sub controller mapping. -/
def lookupSub : List (String × ControllerNode) → String → Option ControllerNode
  | [], _ => none
  | (k, c) :: rest, key => if k == key then some c else lookupSub rest key

/-- One step of a path filter: a literal key, a tuple of literal keys, or a
compiled pattern. The regular expression engine is external; a pattern is
embedded as the predicate `re.Pattern.match` applied to a child name. -/
inductive FilterStep where
  | lit (key : String)
  | keys (ks : List String)
  | pattern (accepts : String → Bool)

/-- The error raised for an absent literal key (the controller repr in the
source message is elided). -/
def subNotFound (key : String) : String :=
  "ValueError: Sub controller " ++ key ++ " not found"

/-- The error raised when a pattern matches no child. -/
def patternNotFound : String :=
  "ValueError: Sub controller matching pattern not found"

mutual
/-- `status_summary_attribute_io.py::_filter_sub_controllers`, fully consumed:
match the head step against the sub controllers of the node, erroring on an
absent literal key, an absent tuple member or a pattern with no match; on the
last step yield the selected nodes, otherwise recurse with the remaining
steps. An exception raised anywhere aborts the whole resolution. -/
def filter_sub_controllers (c : ControllerNode) (path_filter : List FilterStep) :
    Except String (List ControllerNode) :=
  match path_filter with
  | [] => .error "IndexError"
  | step :: rest =>
    match step with
    | .lit key =>
      match lookupSub c.subs key with
      | none => .error (subNotFound key)
      | some sub =>
        if rest.isEmpty then .ok [sub] else filter_sub_controllers sub rest
    | .keys ks => filter_keys_go c ks rest
    | .pattern p =>
      let matched := ((c.subs.filter (fun kv => p kv.1)).map (fun kv => kv.2))
      if matched.isEmpty then .error patternNotFound
      else filter_matched_go matched rest
termination_by (path_filter.length, 0)

/-- The tuple branch of `_filter_sub_controllers` (lines 95-103): check and
select each named key in order, stopping at the first failure. -/
def filter_keys_go (c : ControllerNode) (ks : List String)
    (rest : List FilterStep) : Except String (List ControllerNode) :=
  match ks with
  | [] => .ok []
  | key :: ktl =>
    match lookupSub c.subs key with
    | none => .error (subNotFound key)
    | some sub =>
      match (if rest.isEmpty then Except.ok [sub] else filter_sub_controllers sub rest) with
      | .error e => .error e
      | .ok hd =>
        match filter_keys_go c ktl rest with
        | .error e => .error e
        | .ok tl => .ok (hd ++ tl)
termination_by (rest.length, ks.length + 1)

/-- The pattern branch of `_filter_sub_controllers` (lines 117-121): yield or
recurse into each matched node in order, stopping at the first failure. -/
def filter_matched_go (matched : List ControllerNode) (rest : List FilterStep) :
    Except String (List ControllerNode) :=
  match matched with
  | [] => .ok []
  | sub :: mtl =>
    match (if rest.isEmpty then Except.ok [sub] else filter_sub_controllers sub rest) with
    | .error e => .error e
    | .ok hd =>
      match filter_matched_go mtl rest with
      | .error e => .error e
      | .ok tl => .ok (hd ++ tl)
termination_by (rest.length, matched.length + 1)
end

/-! ## Config fan-out read (`io/config_fan_sender_attribute_io.py`) -/

/-- Modelled from the spec: `DataType.all_equal`, the equality test used by
`ConfigFanAttributeIO.update`, lives in the external fastcs framework. The
specification reads it as all fetched values being equal. -/
def all_equal {V : Type} [BEq V] (values : List V) : Bool :=
  match values with
  | [] => true
  | v :: rest => rest.all (fun w => w == v)

/-- `ConfigFanAttributeIO.update` on the fetched target values: report the
common value when all are equal, otherwise report the configured default of
the datatype (`attr.datatype.initial_value`). An empty target list raises
`IndexError` on `values[0]`, modelled as `none`. -/
def config_fan_update {V : Type} [BEq V] (values : List V) (initial_value : V) :
    Option V :=
  if all_equal values then values.head?
  else some initial_value

/-! ## The reserved-name discard step and derived definitions -/

/-- Values whose runtime type name passes `OdinParameterMetadata` validation in
`infer_metadata`: bool, int, float and str scalars. -/
def supportedJ : JValue → Bool
  | .jbool _ => true
  | .jint _ => true
  | .jfloat _ => true
  | .jstr _ => true
  | _ => false

/-- Modelled from the spec: the discard of leaves whose final path segment is
`name` or `description` - "Any leaf whose final path segment is `name` or
`description` is discarded after being produced". The repository applies this
through `remove_metadata_fields_paths`, whose definition is not among the
provided sources; only its callers (`controllers/odin_data/frame_processor.py`,
`frame_receiver.py`) and its tests (`tests/test_introspection.py`,
`tests/test_util.py`) are. -/
def remove_metadata_fields_paths (parameters : List OdinParameter) :
    List OdinParameter :=
  parameters.filter
    (fun p => !(p.uri.getLastD "" == "name" || p.uri.getLastD "" == "description"))

/-- The flattening pipeline with the reserved-name discard step applied. -/
def create_odin_parameters_filtered (tree : List (String × JValue)) :
    List OdinParameter :=
  remove_metadata_fields_paths (create_odin_parameters tree)

/-! ## Concrete inputs used by individual claims -/

/-- The cached tree of a `ParameterTreeCache` for the put/get round trip. -/
def c1Tree : JValue := .jobj [("hdf", .jobj [("frames", .jint 10)])]

/-- The remote response to `put("hdf/frames", 20)`: the server echoes the new
value under the last path segment. -/
def c1Response : JValue := .jobj [("frames", .jint 20)]

/-- The cached tree after `cache_put c1Tree "hdf/frames" c1Response`: the new
value lands at the top-level key `frames`, not at `hdf/frames`. -/
def c1TreeAfter : JValue :=
  .jobj [("hdf", .jobj [("frames", .jint 10)]), ("frames", .jint 20)]

/-- A metadata-wrapped leaf whose value is a list, declaring
`writeable: true` and `type: "float"` in the outer metadata. -/
def c3Entries : List (String × JValue) :=
  [("value", .jarr [.jint 5]), ("writeable", .jbool true), ("type", .jstr "float")]

/-- A status tree containing the `c3Entries` leaf. -/
def c3Input : List (String × JValue) :=
  [("status", .jobj [("x", .jobj c3Entries)])]

/-- A cache holding one resolvable key, for the failed-fetch schedule. -/
def c4State : CacheState :=
  { tree := .jobj [("x", .jint 1)], last_update := none, event_set := true }

/-- A raw config list with an unsupported element in the middle. -/
def c7Input : List (String × JValue) :=
  [("config", .jobj [("x", .jarr [.jint 1, .jarr [], .jint 2])])]

/-- A metadata-wrapped scalar leaf whose `type` field is `"string"`. -/
def c9Input : List (String × JValue) :=
  [("x", .jobj [("value", .jint 1), ("writeable", .jbool false),
                ("type", .jstr "string")])]

/-- A metadata-wrapped scalar leaf named `name`. -/
def c8Input : List (String × JValue) :=
  [("name", .jobj [("value", .jstr "foo"), ("writeable", .jbool false),
                   ("type", .jstr "str")])]

/-! ## Helper lemmas -/

/-- `infer_metadata` succeeds exactly on supported runtime types, producing the
value, the runtime type name and path-derived writeability. -/
theorem infer_metadata_eq (v : JValue) (uri : List String) :
    infer_metadata v uri =
      if supportedJ v then
        some { value := v, writeable := uri.contains "config", type := pyTypeName v }
      else none := by
  cases v <;> rfl

/-- `infer_metadata` on a supported value. -/
theorem infer_metadata_supported (v : JValue) (uri : List String)
    (h : supportedJ v = true) :
    infer_metadata v uri =
      some { value := v, writeable := uri.contains "config", type := pyTypeName v } := by
  rw [infer_metadata_eq, if_pos h]

/-- `infer_metadata` on an unsupported value. -/
theorem infer_metadata_unsupported (v : JValue) (uri : List String)
    (h : supportedJ v = false) :
    infer_metadata v uri = none := by
  rw [infer_metadata_eq, h]
  rfl

/-- Every parameter emitted by the list expansion carries writeability derived
from its own path and the runtime type name of its own value. -/
theorem expand_list_from_inferred (vs : List JValue) (i : Nat) (p : List String) :
    (expand_list_from vs i p).all
      (fun pm => pm.2.writeable == pm.1.contains "config"
        && pm.2.type == pyTypeName pm.2.value) = true := by
  induction vs generalizing i with
  | nil => rfl
  | cons v rest ih =>
    rw [expand_list_from]
    cases h : supportedJ v
    · rw [infer_metadata_unsupported _ _ h]
      rfl
    · rw [infer_metadata_supported _ _ h]
      simp only [List.all_cons, Bool.and_eq_true, beq_self_eq_true, Bool.and_self]
      exact ⟨trivial, ih (i + 1)⟩

/-- The list expansion emits one parameter per element of the longest prefix of
supported elements, then stops. -/
theorem expand_list_from_length (vs : List JValue) (i : Nat) (p : List String) :
    (expand_list_from vs i p).length = (vs.takeWhile supportedJ).length := by
  induction vs generalizing i with
  | nil => rfl
  | cons v rest ih =>
    rw [expand_list_from, List.takeWhile]
    cases h : supportedJ v
    · rw [infer_metadata_unsupported _ _ h]
      rfl
    · rw [infer_metadata_supported _ _ h]
      simp only [List.length_cons]
      rw [ih (i + 1)]

/-- Membership in an appended singleton for `List.contains`. -/
theorem contains_append_singleton (p : List String) (x c : String) :
    (p ++ [x]).contains c = (p.contains c || x == c) := by
  simp only [List.elem_eq_mem, List.mem_append, List.mem_singleton, Bool.decide_or,
    beq_eq_decide]
  rw [decide_eq_decide.mpr (Iff.intro Eq.symm Eq.symm)]

/-- Under a path that already contains `config`, every expanded list element is
writeable. -/
theorem expand_list_from_writeable (vs : List JValue) (i : Nat) (p : List String)
    (hp : p.contains "config" = true) :
    (expand_list_from vs i p).all (fun pm => pm.2.writeable) = true := by
  induction vs generalizing i with
  | nil => rfl
  | cons v rest ih =>
    rw [expand_list_from]
    cases h : supportedJ v
    · rw [infer_metadata_unsupported _ _ h]
      rfl
    · rw [infer_metadata_supported _ _ h]
      simp only [List.all_cons, contains_append_singleton, hp, Bool.true_or,
        Bool.true_and]
      exact ih (i + 1)

/-! ## Claim theorems -/

/-- C1: the claim reads that a successful `put(path, value)` patches the
remote-confirmed value into the cached tree at the location a later in-TTL
`get(path, ttl)` resolves. The code patches at the path elements after the
first (`path_elems[1:]`, line 140 of `parameter_cache.py`) while `get`
resolves the full path (line 126): after putting `20` to `hdf/frames` the
response value lands at the top-level key `frames`, and the in-TTL `get` of
`hdf/frames`, which performs no fetch, still returns the old `10`. -/
theorem C1_put_get_divergence :
    cache_put c1Tree "hdf/frames" c1Response = .ok c1TreeAfter
    ∧ lookupJ [("frames", .jint 20)] "frames" = some (.jint 20)
    ∧ needs_update (some 100) 100 (some 1) = false
    ∧ cache_get { tree := c1TreeAfter, last_update := some 100, event_set := true }
        100 "hdf/frames" (some 1) (.error "no fetch performed") =
        ({ tree := c1TreeAfter, last_update := some 100, event_set := true },
          .ok (.jint 10))
    ∧ (JValue.jint 10 : JValue) ≠ .jint 20 := by
  refine ⟨rfl, rfl, rfl, rfl, ?_⟩
  simp

/-- C2: flattening is deterministic - two runs on the same tree yield the same
list - and the result order is depth first with the object key order of the
input preserved: the walk of an item list is the walk of its head node
followed by the walk of the remaining items, and a branch node contributes the
walk of its own entries under the extended path. -/
theorem C2_flatten_deterministic :
    ∀ (tree : List (String × JValue)) (path : List String),
      create_odin_parameters tree = create_odin_parameters tree
      ∧ walk_odin_metadata [] path = []
      ∧ (∀ (k : String) (v : JValue) (rest : List (String × JValue)),
          walk_odin_metadata ((k, v) :: rest) path =
            walk_odin_node k v path ++ walk_odin_metadata rest path)
      ∧ (∀ (k : String) (entries : List (String × JValue)),
          walk_odin_node k (.jobj entries) path =
            if (path ++ [k]).contains "command" then []
            else if is_metadata_object (.jobj entries) then
              walk_leaf_metadata entries (path ++ [k])
            else walk_odin_metadata entries (path ++ [k])) := by
  intro tree path
  refine ⟨rfl, rfl, fun k v rest => rfl, fun k entries => ?_⟩
  rw [walk_odin_node]

/-- C3: the claim reads that expanding a metadata-wrapped array leaf propagates
the outer `writeable` and `type` to every element. The code instead calls
`expand_list_parameter`, which infers both per element via `infer_metadata`
(lines 133-135, 174-181 of `util.py`): for a status leaf declaring
`writeable: true, type: "float"` with value `[5]`, the emitted parameter is
read-only with type `"int"`. -/
theorem C3_counterexample :
    create_odin_parameters c3Input =
      [{ uri := ["status", "x", "0"],
         metadata := { value := .jint 5, writeable := false, type := "int" } }]
    ∧ lookupJ c3Entries "writeable" = some (.jbool true)
    ∧ lookupJ c3Entries "type" = some (.jstr "float")
    ∧ (false ≠ true)
    ∧ ("int" ≠ "float") := by
  refine ⟨rfl, rfl, rfl, ?_, ?_⟩ <;> decide

/-- C3 (amended): for every metadata-wrapped leaf whose value is an array, the
walk defers to `expand_list_parameter`, and every emitted parameter carries
writeability inferred from its own path (true exactly when the path contains
`config`) and the runtime type of its own element - the outer metadata objects
`writeable` and `type` fields are ignored. -/
theorem C3_list_leaf_inferred :
    ∀ (k : String) (entries : List (String × JValue)) (path : List String)
      (items : List JValue),
      (path ++ [k]).contains "command" = false →
      is_metadata_object (.jobj entries) = true →
      lookupJ entries "value" = some (.jarr items) →
      walk_odin_node k (.jobj entries) path =
        expand_list_parameter items (path ++ [k])
      ∧ ∀ (vs : List JValue) (p : List String) (i : Nat),
          (expand_list_from vs i p).all
            (fun pm => pm.2.writeable == pm.1.contains "config"
              && pm.2.type == pyTypeName pm.2.value) = true := by
  intro k entries path items hcmd hmeta hval
  constructor
  · rw [walk_odin_node]
    simp only [hcmd, if_false, hmeta, if_true, walk_leaf_metadata, hval,
      Bool.false_eq_true]
  · exact fun vs p i => expand_list_from_inferred vs i p

/-- C3 witness: the amended statement applied to a concrete status leaf. -/
theorem C3_list_leaf_inferred_witness :
    walk_odin_node "x" (.jobj c3Entries) ["status"] =
      expand_list_parameter [.jint 5] ["status", "x"] :=
  (C3_list_leaf_inferred "x" c3Entries ["status"] [.jint 5]
    (by decide) (by decide) rfl).1

/-- C4: the claim reads that a failed refresh fetch reopens the gate, performs
no internal retry, and propagates the error to every caller suspended on the
fetch. In the code (lines 102-123 of `parameter_cache.py`) the finally block
only sets the update event: the caller that performed the fetch raises
`AdapterResponseError`, while a waiter suspended on `wait()` resumes and reads
the old cached tree, observing no error at all. -/
theorem C4_counterexample :
    (single_flight_pair c4State 5 "x" "x" (.error "Connection refused")).2.1 =
      .error "AdapterResponseError"
    ∧ (single_flight_pair c4State 5 "x" "x" (.error "Connection refused")).2.2 =
        .ok (.jint 1)
    ∧ ((single_flight_pair c4State 5 "x" "x"
        (.error "Connection refused")).2.2).isOk = true := by
  exact ⟨rfl, rfl, rfl⟩

/-- C4 (amended): on a failed fetch the gate is reopened, the cached tree and
the staleness stamp are left unchanged (no internal retry happens and the next
scheduled read will attempt again), the initiating caller receives
`AdapterResponseError`, and every waiter suspended on the event resumes and
resolves its path against the cache as it stood, receiving no error from the
fetch. -/
theorem C4_failed_fetch :
    ∀ (s : CacheState) (now : Nat) (pa pb : String) (e : String),
      (single_flight_pair s now pa pb (.error e)).1.event_set = true
      ∧ (single_flight_pair s now pa pb (.error e)).1.tree = s.tree
      ∧ (single_flight_pair s now pa pb (.error e)).1.last_update = s.last_update
      ∧ (single_flight_pair s now pa pb (.error e)).2.1 =
          .error "AdapterResponseError"
      ∧ (single_flight_pair s now pa pb (.error e)).2.2 =
          cache_get_cached s.tree pb := by
  exact fun s now pa pb e => ⟨rfl, rfl, rfl, rfl, rfl⟩

/-- If any key of a tuple step is absent from the sub controllers, consuming
the tuple branch fails, whichever selected child fails first. -/
theorem filter_keys_go_notFound (c : ControllerNode) (ks : List String)
    (rest : List FilterStep)
    (hk : ∃ k, k ∈ ks ∧ lookupSub c.subs k = none) :
    (filter_keys_go c ks rest).isOk = false := by
  induction ks with
  | nil =>
    obtain ⟨k, hmem, _⟩ := hk
    cases hmem
  | cons key ktl ih =>
    obtain ⟨k, hmem, hnone⟩ := hk
    rw [filter_keys_go]
    cases hl : lookupSub c.subs key
    · rfl
    · have hktl : ∃ k, k ∈ ktl ∧ lookupSub c.subs k = none := by
        rcases List.mem_cons.1 hmem with hk1 | hk2
        · subst hk1
          rw [hl] at hnone
          cases hnone
        · exact ⟨k, hk2, hnone⟩
      cases hr : (if rest.isEmpty then Except.ok [‹ControllerNode›]
          else filter_sub_controllers ‹ControllerNode› rest) with
      | error e => simp [hr, Except.isOk, Except.toBool]
      | ok hd =>
        cases hko : filter_keys_go c ktl rest with
        | error e => simp [hr, hko, Except.isOk, Except.toBool]
        | ok tl =>
          have := ih hktl
          rw [hko] at this
          cases this

/-- C5: path-filter resolution errors. A literal step whose key is absent from
the sub controllers of the current node raises the `ValueError` naming the
missing key; a tuple step fails if any named key is absent; a pattern step
with no matching child name raises the pattern `ValueError`; and an error in a
selected child aborts resolution of the whole filter rather than being
swallowed. -/
theorem C5_resolution_errors :
    ∀ (c : ControllerNode) (rest : List FilterStep) (key : String)
      (ks : List String) (p : String → Bool) (sub : ControllerNode) (e : String),
      (lookupSub c.subs key = none →
        filter_sub_controllers c (.lit key :: rest) = .error (subNotFound key))
      ∧ ((∃ k, k ∈ ks ∧ lookupSub c.subs k = none) →
          (filter_sub_controllers c (.keys ks :: rest)).isOk = false)
      ∧ ((c.subs.filter (fun kv => p kv.1)).isEmpty = true →
          filter_sub_controllers c (.pattern p :: rest) = .error patternNotFound)
      ∧ (rest ≠ [] → lookupSub c.subs key = some sub →
          filter_sub_controllers sub rest = .error e →
          filter_sub_controllers c (.lit key :: rest) = .error e) := by
  intro c rest key ks p sub e
  refine ⟨?_, ?_, ?_, ?_⟩
  · intro h
    rw [filter_sub_controllers]
    simp [h]
  · intro h
    rw [filter_sub_controllers]
    exact filter_keys_go_notFound c ks rest h
  · intro h
    rw [filter_sub_controllers]
    simp [List.isEmpty_iff.1 h]
  · intro hne hl hrec
    cases rest with
    | nil => cases hne rfl
    | cons r rtl =>
      rw [filter_sub_controllers]
      simp [hl, hrec]

/-- C5 witness: the four error modes on a concrete two-level hierarchy. -/
theorem C5_resolution_errors_witness :
    filter_sub_controllers (.node [("FP", .node [])]) [.lit "HDF"] =
      .error (subNotFound "HDF")
    ∧ (filter_sub_controllers (.node [("FP", .node [])])
        [.keys ["FP", "HDF"]]).isOk = false
    ∧ filter_sub_controllers (.node [("FP", .node [])])
        [.pattern (fun s => s == "FR0")] = .error patternNotFound
    ∧ filter_sub_controllers (.node [("FP", .node [])]) [.lit "FP", .lit "HDF"] =
        .error (subNotFound "HDF") := by
  refine ⟨?_, ?_, ?_, ?_⟩
  · exact (C5_resolution_errors (.node [("FP", .node [])]) [] "HDF" [] (fun _ => true)
      (.node []) "").1 rfl
  · exact (C5_resolution_errors (.node [("FP", .node [])]) [] "" ["FP", "HDF"]
      (fun _ => true) (.node []) "").2.1 ⟨"HDF", by decide, rfl⟩
  · exact (C5_resolution_errors (.node [("FP", .node [])]) [] ""
      [] (fun s => s == "FR0") (.node []) "").2.2.1 (by decide)
  · exact (C5_resolution_errors (.node [("FP", .node [])]) [.lit "HDF"] "FP" []
      (fun _ => true) (.node []) (subNotFound "HDF")).2.2.2 (by simp) rfl
      ((C5_resolution_errors (.node []) [] "HDF" [] (fun _ => true)
        (.node []) "").1 rfl)

/-- C6: the claim reads that when target values diverge the fan-out read
reports the configured default, "never one of the observed values". The code
reports `attr.datatype.initial_value`, which can coincide with an observed
value: with observed values `10` and `0` and default `0`, the reported value
`0` is one of the observed values. -/
theorem C6_counterexample :
    config_fan_update [(10 : Int), 0] 0 = some 0
    ∧ (0 : Int) ∈ [(10 : Int), 0] := by
  exact ⟨rfl, by decide⟩

/-- C6 (amended): over a non-empty fixed target list, the fan-out read reports
the common value when all fetched values are equal and the configured default
when they diverge; the default is chosen independently of the observed values
but may coincide with one of them. `all_equal` holds exactly when every value
equals the first. -/
theorem C6_fan_read {V : Type} [BEq V] [LawfulBEq V] :
    ∀ (v : V) (vs : List V) (d : V),
      (all_equal (v :: vs) = true → config_fan_update (v :: vs) d = some v)
      ∧ (all_equal (v :: vs) = false → config_fan_update (v :: vs) d = some d)
      ∧ (all_equal (v :: vs) = true ↔ ∀ w ∈ vs, w = v) := by
  intro v vs d
  refine ⟨?_, ?_, ?_⟩
  · intro h
    rw [config_fan_update, h]
    rfl
  · intro h
    rw [config_fan_update, h]
    rfl
  · simp [all_equal, List.all_eq_true]

/-- C6 witness: equal read-backs report the common value, diverging read-backs
report the default. -/
theorem C6_fan_read_witness :
    config_fan_update [(10 : Int), 10] 0 = some 10
    ∧ config_fan_update [(10 : Int), 5] 0 = some 0 :=
  ⟨(C6_fan_read 10 [10] 0).1 (by decide), (C6_fan_read 10 [5] 0).2.1 (by decide)⟩

/-- C7: the claim reads that a raw non-empty config array yields one writable
parameter per element. The expansion is consumed inside the try block of the
walk: an element whose runtime type fails validation stops the expansion,
keeping only the parameters already yielded. For `config x = [1, [], 2]` the
code emits a single parameter (index 0), not one per element. -/
theorem C7_counterexample :
    create_odin_parameters c7Input =
      [{ uri := ["config", "x", "0"],
         metadata := { value := .jint 1, writeable := true, type := "int" } }]
    ∧ (([.jint 1, .jarr [], .jint 2] : List JValue).length = 3)
    ∧ (1 ≠ 3) := by
  exact ⟨rfl, rfl, by decide⟩

/-- C7 (amended): a raw non-empty array leaf under a `config` path expands via
`expand_list_parameter` into one writable parameter per element of the longest
prefix of supported-type elements, stopping at the first unsupported element;
outside `config` it collapses to a single read-only string parameter holding
the Python string of the array. The two concrete examples of the claim hold. -/
theorem C7_raw_list_leaf :
    (∀ (k : String) (path : List String) (items : List JValue),
      (path ++ [k]).contains "command" = false →
      (!items.isEmpty && items.all isDictJ) = false →
      ((path ++ [k]).contains "config" = true →
        walk_odin_node k (.jarr items) path =
          expand_list_parameter items (path ++ [k])
        ∧ (expand_list_parameter items (path ++ [k])).length =
            (items.takeWhile supportedJ).length
        ∧ (expand_list_parameter items (path ++ [k])).all
            (fun pm => pm.2.writeable) = true)
      ∧ ((path ++ [k]).contains "config" = false →
        walk_odin_node k (.jarr items) path =
          [(path ++ [k],
            { value := .jstr (pyStr (.jarr items)), writeable := false,
              type := "str" })]))
    ∧ create_odin_parameters [("config", .jobj [("chunks", .jarr [.jint 1])])] =
        [{ uri := ["config", "chunks", "0"],
           metadata := { value := .jint 1, writeable := true, type := "int" } }]
    ∧ create_odin_parameters [("status", .jobj [("values", .jarr [.jint 1])])] =
        [{ uri := ["status", "values"],
           metadata := { value := .jstr "[1]", writeable := false,
                         type := "str" } }] := by
  refine ⟨?_, rfl, rfl⟩
  intro k path items hcmd hshard
  constructor
  · intro hconf
    refine ⟨?_, expand_list_from_length items 0 (path ++ [k]),
      expand_list_from_writeable items 0 (path ++ [k]) hconf⟩
    rw [walk_odin_node]
    simp only [hcmd, Bool.false_eq_true, if_false, hshard, walk_leaf_list, hconf,
      if_true]
  · intro hconf
    rw [walk_odin_node]
    simp only [hcmd, Bool.false_eq_true, if_false, hshard, walk_leaf_list, hconf,
      infer_metadata_supported (.jstr (pyStr (.jarr items))) (path ++ [k]) rfl,
      pyTypeName]

/-- C7 witness: the amended statement applied to a concrete config array with
an unsupported element. -/
theorem C7_raw_list_leaf_witness :
    walk_odin_node "x" (.jarr [.jint 1, .jarr []]) ["config"] =
      expand_list_parameter [.jint 1, .jarr []] ["config", "x"]
    ∧ (expand_list_parameter [.jint 1, .jarr []] ["config", "x"]).length =
        (([.jint 1, .jarr []] : List JValue).takeWhile supportedJ).length :=
  ⟨((C7_raw_list_leaf.1 "x" ["config"] [.jint 1, .jarr []]
      (by decide) (by decide)).1 (by decide)).1,
   ((C7_raw_list_leaf.1 "x" ["config"] [.jint 1, .jarr []]
      (by decide) (by decide)).1 (by decide)).2.1⟩

/-- C8: no parameter whose final path segment is `name` or `description`
survives the flattening pipeline: the walk itself produces such leaves (second
conjunct) and the discard step then removes them (first and third conjuncts).
The discard step is modelled from the spec, its implementation being absent
from the provided sources. -/
theorem C8_reserved_leaves_discarded :
    (∀ (tree : List (String × JValue)),
      (create_odin_parameters_filtered tree).all
        (fun p => !(p.uri.getLastD "" == "name"
          || p.uri.getLastD "" == "description")) = true)
    ∧ create_odin_parameters c8Input =
        [{ uri := ["name"],
           metadata := { value := .jstr "foo", writeable := false,
                         type := "str" } }]
    ∧ create_odin_parameters_filtered c8Input = [] := by
  refine ⟨?_, rfl, rfl⟩
  intro tree
  apply List.all_eq_true.2
  intro p hp
  exact (List.mem_filter.1 hp).2

/-- C9: the claim reads that the four declared type names are `float`, `int`,
`bool` and `string`. Validation accepts `Literal["float", "int", "bool",
"str"]`: a metadata-wrapped scalar leaf declaring `type: "string"` fails
validation and is dropped, so the claim fails at `"string"`. -/
theorem C9_counterexample :
    create_odin_parameters c9Input = []
    ∧ "string" ∈ ["float", "int", "bool", "string"] := by
  exact ⟨rfl, by decide⟩

/-- C9 (amended): a metadata-wrapped leaf with a scalar (non-list, non-dict)
value, a boolean writeable flag and a type field among the four accepted
literals `float`, `int`, `bool`, `str` passes validation and is emitted as one
parameter carrying exactly that metadata. -/
theorem C9_metadata_scalar_types :
    ∀ (k t : String) (w : Bool) (v : JValue) (path : List String),
      (path ++ [k]).contains "command" = false →
      odinTypeNames.contains t = true →
      isListJ v = false →
      isDictJ v = false →
      walk_odin_node k
        (.jobj [("value", v), ("writeable", .jbool w), ("type", .jstr t)]) path =
        [(path ++ [k], { value := v, writeable := w, type := t })] := by
  intro k t w v path hcmd ht hlist hdict
  rw [walk_odin_node]
  simp only [hcmd, Bool.false_eq_true, if_false]
  cases v <;>
    simp_all [walk_leaf_metadata, is_metadata_object, lookupJ,
      OdinParameterMetadata.model_validate, odinMetadataFields, odinTypeNames,
      asBoolJ, asStrJ, optStrField, optIntField, allowedValuesField, isListJ,
      isDictJ]

/-- C9 witness: the amended statement applied to a concrete float leaf. -/
theorem C9_metadata_scalar_types_witness :
    walk_odin_node "x"
      (.jobj [("value", .jint 1), ("writeable", .jbool true),
              ("type", .jstr "float")]) [] =
      [(["x"], { value := .jint 1, writeable := true, type := "float" })] :=
  C9_metadata_scalar_types "x" "float" true (.jint 1) []
    (by decide) (by decide) rfl rfl

/-- C10: a raw leaf holding the empty array never satisfies the sharded branch
guard; under a `config` path its expansion yields no parameter at all, and
elsewhere it collapses to a single read-only string parameter of value `[]`. -/
theorem C10_empty_list_leaf :
    ∀ (k : String) (path : List String),
      (path ++ [k]).contains "command" = false →
      walk_odin_node k (.jarr []) path =
        (if (path ++ [k]).contains "config" then []
         else [(path ++ [k],
                { value := .jstr "[]", writeable := false, type := "str" })]) := by
  intro k path hcmd
  rw [walk_odin_node]
  simp only [hcmd, Bool.false_eq_true, if_false]
  show walk_leaf_list [] (path ++ [k]) = _
  rw [walk_leaf_list]
  cases hc : (path ++ [k]).contains "config"
  · rw [if_neg (by simp [hc]), if_neg (by simp [hc]),
      infer_metadata_supported (.jstr (pyStr (.jarr []))) (path ++ [k]) rfl, hc]
    rfl
  · rfl

/-- C10 witness: the empty array leaf under config and under status. -/
theorem C10_empty_list_leaf_witness :
    walk_odin_node "x" (.jarr []) ["config"] = []
    ∧ walk_odin_node "vals" (.jarr []) ["status"] =
        [(["status", "vals"],
          { value := .jstr "[]", writeable := false, type := "str" })] :=
  ⟨by simpa using C10_empty_list_leaf "x" ["config"] (by decide),
   by simpa using C10_empty_list_leaf "vals" ["status"] (by decide)⟩
